import Mathlib

/-!
Shallow embedding of the opsci-commons-rbac metadata service
(src/services/metadataService.ts): the dataset/chunk/file data model,
the publish and cascading-delete workflows, and the read-side queries.

The metadata store (dbWrapper), the blob store (estuaryWrapper) and the
signature verifier (utils.assertSignerIsAddress) are collaborators whose
source is not part of this repository snapshot; they are modelled from
the specification (section 4.2: per-entity-kind atomic operations with a
boolean result) and as oracle parameters (booleans / boolean functions)
where the service only observes a success flag.
-/

namespace Commons

/-- Dataset record: id, uploader address, published flag, metadata fields,
child chunk ids. `keywords` is optional because the publish path may set it
from an absent request field. -/
structure Dataset where
  id : Nat
  uploader : String
  published : Bool
  title : String
  description : String
  authors : List Nat
  chunkIds : List Nat
  keywords : Option (List String)
deriving DecidableEq, Repr

/-- Chunk record: one physical storage unit of a dataset; `estuaryId` is the
blob-store group id (storageIds.estuaryId in the source). -/
structure Chunk where
  id : Nat
  datasetId : Nat
  fileIds : List Nat
  estuaryId : Nat
deriving DecidableEq, Repr

/-- File record (a "commons file" in the source's dbWrapper vocabulary):
one logical file packed into a chunk. -/
structure CommonsFile where
  id : Nat
  chunkId : Nat
  name : String
deriving DecidableEq, Repr

/-- Author record created by the publish workflow. -/
structure Author where
  id : Nat
  name : String
deriving DecidableEq, Repr

/-- The metadata store state: all four record collections. -/
structure DB where
  datasets : List Dataset
  chunks : List Chunk
  files : List CommonsFile
  authors : List Author
deriving DecidableEq, Repr

/-- JavaScript's String.prototype.toLowerCase as used on hex addresses,
embedded structurally so it evaluates on concrete inputs. -/
def toLowerCase (s : String) : String := ⟨s.data.map Char.toLower⟩

/-- Split a character list at every separator occurrence (never empty). -/
def splitAtSep (sep : Char) (l : List Char) : List (List Char) :=
  l.foldr
    (fun c acc =>
      match acc with
      | [] => [[c]]
      | cur :: rest => if c = sep then [] :: cur :: rest else (c :: cur) :: rest)
    [[]]

/-- JavaScript's String.prototype.split(",") as used on the authors and
keywords fields, embedded structurally: the empty string splits to [""],
consecutive commas produce empty pieces. -/
def splitCommas (s : String) : List String :=
  (splitAtSep ',' s.data).map (fun cs => ⟨cs⟩)

/-- Modelled from the spec: dbWrapper.deleteCommonsFiles with filter
`chunkId in chunkIds`. A single-entity-kind operation is atomic
(spec section 4.2): when the store reports failure (`ok = false`)
nothing is removed. -/
def deleteCommonsFiles (ok : Bool) (db : DB) (chunkIds : List Nat) : DB :=
  if ok then
    { db with files := db.files.filter (fun f => !(chunkIds.contains f.chunkId)) }
  else db

/-- Modelled from the spec: dbWrapper.deleteChunks with filter
`_id in chunkIds`; atomic per operation, no-op on store failure. -/
def deleteChunks (ok : Bool) (db : DB) (chunkIds : List Nat) : DB :=
  if ok then
    { db with chunks := db.chunks.filter (fun c => !(chunkIds.contains c.id)) }
  else db

/-- Modelled from the spec: dbWrapper.deleteDataset with filter
`_id = datasetId`; atomic per operation, no-op on store failure. -/
def deleteDataset (ok : Bool) (db : DB) (datasetId : Nat) : DB :=
  if ok then
    { db with datasets := db.datasets.filter (fun d => !(d.id == datasetId)) }
  else db

/-- Store / blob-store operations issued by the cascading delete, recorded in
order as a trace. -/
inductive StoreOp where
  | deleteFilesByChunkIds : List Nat → StoreOp
  | deleteChunksByIds : List Nat → StoreOp
  | deleteDatasetById : Nat → StoreOp
  | estuaryDeleteFile : Nat → StoreOp
deriving DecidableEq, Repr

/-- Outcome of deleteFileMetadata, one constructor per return site of the
source function. -/
inductive DeleteOutcome where
  | missingParams
  | badAddress
  | badSignature
  | noChunks
  | noDataset
  | publishedConflict
  | unknownFailure
  | deleted
deriving DecidableEq, Repr

/-- HTTP status attached to each deleteFileMetadata return site. -/
def DeleteOutcome.status : DeleteOutcome → Nat
  | .noChunks => 404
  | .noDataset => 404
  | .deleted => 200
  | _ => 400

/-- Query parameters of the delete request. `estuaryId` is modelled already
parsed to a number (the source applies parseInt to the query string). -/
structure DeleteReq where
  address : Option String
  estuaryId : Option Nat
  signature : Option String
  path : Option String
deriving Repr

/-- Result of deleteFileMetadata: final store state, the trace of delete
operations issued, and the response outcome. -/
structure DeleteRes where
  db : DB
  trace : List StoreOp
  outcome : DeleteOutcome
deriving DecidableEq, Repr

/-- deleteFileMetadata from src/services/metadataService.ts.
`verify` abstracts utils.assertSignerIsAddress; `fOk`, `cOk`, `dOk` are the
boolean results the store reports for the three delete steps, and `estOk`
the result of estuaryWrapper.deleteFile. -/
def deleteFileMetadata (verify : String → String → String → Bool)
    (fOk cOk dOk estOk : Bool) (db : DB) (req : DeleteReq) : DeleteRes :=
  match req.address, req.estuaryId, req.signature with
  | some addr, some estuaryId, some signature =>
    if addr = "" ∨ signature = "" then ⟨db, [], .missingParams⟩
    else if ¬ (addr.length = 42 ∧ addr.take 2 = "0x") then ⟨db, [], .badAddress⟩
    else
      let address := toLowerCase addr
      let msg := "/metadata/files?address=" ++ addr ++ "&estuaryId=" ++ toString estuaryId
      if verify msg signature address then
        match db.chunks.filter (fun c => c.estuaryId == estuaryId) with
        | [] => ⟨db, [], .noChunks⟩
        | chunk0 :: _ =>
          let datasetId := chunk0.datasetId
          match db.datasets.filter (fun d => d.id == datasetId) with
          | [] => ⟨db, [], .noDataset⟩
          | dataset :: _ =>
            if dataset.published then ⟨db, [], .publishedConflict⟩
            else
              let datasetChildChunkIds := dataset.chunkIds
              let db1 := deleteCommonsFiles fOk db datasetChildChunkIds
              let db2 := deleteChunks cOk db1 datasetChildChunkIds
              let db3 := deleteDataset dOk db2 datasetId
              let trace := [StoreOp.deleteFilesByChunkIds datasetChildChunkIds,
                            StoreOp.deleteChunksByIds datasetChildChunkIds,
                            StoreOp.deleteDatasetById datasetId,
                            StoreOp.estuaryDeleteFile estuaryId]
              if estOk then ⟨db3, trace, .deleted⟩
              else ⟨db3, trace, .unknownFailure⟩
      else ⟨db, [], .badSignature⟩
  | _, _, _ => ⟨db, [], .missingParams⟩

/-- Request body of publishDataset. `datasetId` is modelled already parsed
to the id it names (the source wraps it in mongodb.ObjectId). `authors` and
`keywords` are the raw comma-separated strings. -/
structure PublishReq where
  address : Option String
  signature : Option String
  datasetId : Option Nat
  title : Option String
  description : Option String
  authors : Option String
  keywords : Option String
deriving Repr

/-- Outcome of publishDataset, one constructor per return site of the
source function. -/
inductive PublishOutcome where
  | missingParams
  | badSignature
  | authorInsertFailed
  | publishFailed
  | published
deriving DecidableEq, Repr

/-- HTTP status attached to each publishDataset return site. -/
def PublishOutcome.status : PublishOutcome → Nat
  | .published => 200
  | _ => 400

/-- Result of publishDataset: final store state, response outcome, and the
number of dataset-update attempts issued. -/
structure PublishRes where
  db : DB
  outcome : PublishOutcome
  attempts : Nat
deriving DecidableEq, Repr

/-- Author records the publish workflow builds for the given author names:
one record per name, with fresh ids nextId, nextId+1, ... in the order the
names were given (the source calls new mongodb.ObjectId() once per name
while mapping over the split author string). -/
def mkAuthors (nextId : Nat) (names : List String) : List Author :=
  names.enum.map (fun p => ⟨nextId + p.1, p.2⟩)

/-- Modelled from the spec: dbWrapper.insertAuthor returns a boolean and a
single insert is atomic, so a failed insert stores nothing. The oracle
insertOk answers for the i-th insert of this call. The loop mirrors the
source's for-loop: it stops at the first failed insert. -/
def insertAuthorsFrom (insertOk : Nat → Bool) : DB → Nat → List Author → DB × Bool
  | db, _, [] => (db, true)
  | db, i, a :: rest =>
    if insertOk i then
      insertAuthorsFrom insertOk { db with authors := db.authors ++ [a] } (i + 1) rest
    else (db, false)

/-- The $set document the publish workflow applies to the matched dataset. -/
structure DatasetPatch where
  title : String
  description : String
  authors : List Nat
  keywords : Option (List String)
deriving DecidableEq, Repr

/-- Apply the publish $set patch to one dataset record. -/
def applyPatch (p : DatasetPatch) (d : Dataset) : Dataset :=
  { d with published := true, title := p.title, description := p.description,
           authors := p.authors, keywords := p.keywords }

/-- Modelled from the spec: dbWrapper.updateDataset with filter
uploader = address and _id = datasetId applying a $set patch; reports true
iff the filter matched a record (a non-owner's datasetId reports "no
match"); a transiently failing call (ok = false) changes nothing and
reports false. -/
def updateDataset (ok : Bool) (db : DB) (uploader : String) (datasetId : Nat)
    (p : DatasetPatch) : DB × Bool :=
  if ok then
    let patched :=
      db.datasets.map
        (fun d => if d.uploader == uploader && d.id == datasetId then applyPatch p d else d)
    ({ db with datasets := patched },
     db.datasets.any (fun d => d.uploader == uploader && d.id == datasetId))
  else (db, false)

/-- The source's bounded retry loop (for i in 0..2) over the given attempt
indices: stops at the first successful update; returns the final store
state, the overall success flag and the number of attempts issued. -/
def publishUpdateLoop (attemptOk : Nat → Bool) (uploader : String) (datasetId : Nat)
    (p : DatasetPatch) : DB → List Nat → DB × Bool × Nat
  | db, [] => (db, false, 0)
  | db, i :: rest =>
    let r := updateDataset (attemptOk i) db uploader datasetId p
    if r.2 then (r.1, true, 1)
    else
      let q := publishUpdateLoop attemptOk uploader datasetId p r.1 rest
      (q.1, q.2.1, q.2.2 + 1)

/-- publishDataset from src/services/metadataService.ts.
`verify` abstracts utils.assertSignerIsAddress; `insertOk` and `attemptOk`
are the store's answers for the author inserts and the update attempts;
`nextId` models the fresh ObjectId generator. Note the source's
missing-parameter check covers address, signature, datasetId, title,
description and authors but not keywords. -/
def publishDataset (verify : String → String → String → Bool)
    (insertOk : Nat → Bool) (attemptOk : Nat → Bool) (nextId : Nat)
    (db : DB) (req : PublishReq) : PublishRes :=
  let address := toLowerCase (req.address.getD "")
  let signature := req.signature.getD ""
  let title := req.title.getD ""
  let description := req.description.getD ""
  match req.datasetId, req.authors with
  | some datasetId, some authorsStr =>
    if address = "" ∨ signature = "" ∨ title = "" ∨ description = "" then
      ⟨db, .missingParams, 0⟩
    else
      let authorsStrArr := splitCommas authorsStr
      let keywords := req.keywords.map (fun s => splitCommas s)
      let msg := (req.address.getD "") ++ toString datasetId
      if verify msg signature address then
        let authors := mkAuthors nextId authorsStrArr
        let authorIds := authors.map Author.id
        let ins := insertAuthorsFrom insertOk db 0 authors
        if ins.2 then
          let p : DatasetPatch := ⟨title, description, authorIds, keywords⟩
          let r := publishUpdateLoop attemptOk address datasetId p ins.1 [0, 1, 2]
          if r.2.1 then ⟨r.1, .published, r.2.2⟩
          else ⟨r.1, .publishFailed, r.2.2⟩
        else ⟨ins.1, .authorInsertFailed, 0⟩
      else ⟨db, .badSignature, 0⟩
  | _, _ => ⟨db, .missingParams, 0⟩

/-- A verifier that accepts every signature, used in concrete witnesses. -/
def wVerify : String → String → String → Bool := fun _ _ _ => true

/-- A well-formed 42-character lowercase hex address for witnesses. -/
def wAddr : String := "0xaaaaaaaaaaaaaaaaaaaaaaaaaaaaaaaaaaaaaaaa"

/-- Concrete chunk used by the delete-workflow witnesses. -/
def wChunk : Chunk := ⟨1, 10, [100, 101], 7⟩

/-- Concrete published dataset owning wChunk. -/
def wDatasetPub : Dataset := ⟨10, wAddr, true, "t", "d", [], [1], none⟩

/-- Concrete unpublished dataset owning wChunk. -/
def wDatasetUnpub : Dataset := ⟨10, wAddr, false, "t", "d", [], [1], none⟩

/-- Concrete store with a published dataset, its chunk and two files. -/
def wDbPub : DB := ⟨[wDatasetPub], [wChunk], [⟨100, 1, "f1"⟩, ⟨101, 1, "f2"⟩], []⟩

/-- Concrete store with an unpublished dataset, its chunk and two files. -/
def wDbUnpub : DB := ⟨[wDatasetUnpub], [wChunk], [⟨100, 1, "f1"⟩, ⟨101, 1, "f2"⟩], []⟩

/-- Concrete unpublished dataset owned by 0xab, for the publish witnesses. -/
def pDataset : Dataset := ⟨10, "0xab", false, "old", "old", [], [1], none⟩

/-- Concrete store for the publish witnesses. -/
def pDb : DB := ⟨[pDataset], [], [], []⟩

/-- Publish request with every field present except keywords. -/
def pReqNoKeywords : PublishReq :=
  ⟨some "0xab", some "sg", some 10, some "T", some "D", some "alice,bob", none⟩

/-- Publish request missing its title. -/
def pReqNoTitle : PublishReq :=
  ⟨some "0xab", some "sg", some 10, none, some "D", some "alice,bob", some "k"⟩

/-- Publish request whose claimed address is not pDataset's uploader. -/
def pReqNonOwner : PublishReq :=
  ⟨some "0xcd", some "sg", some 10, some "T", some "D", some "alice", some "k"⟩

/-- Outcome of getPublishedChunksByDatasetId, one constructor per return
site of the source function. -/
inductive ChunksOutcome where
  | missingParam
  | notFound
  | ok : List Chunk → ChunksOutcome
deriving DecidableEq, Repr

/-- HTTP status attached to each getPublishedChunksByDatasetId return
site. -/
def ChunksOutcome.status : ChunksOutcome → Nat
  | .missingParam => 400
  | .notFound => 404
  | .ok _ => 200

/-- getPublishedChunksByDatasetId from src/services/metadataService.ts:
re-checks that the dataset resolved by datasetId is published before
returning its chunks. -/
def getPublishedChunksByDatasetId (db : DB) (datasetId : Option Nat) : ChunksOutcome :=
  match datasetId with
  | none => .missingParam
  | some did =>
    match db.datasets.filter (fun d => d.id == did && d.published) with
    | [] => .notFound
    | _ :: _ => .ok (db.chunks.filter (fun c => c.datasetId == did))

/-- getAllPublishedDatasets from src/services/metadataService.ts: on store
success it returns 200 with whatever the published filter produced, even
when empty; only a store error (the catch path, `storeOk = false`) yields
the 404 response. -/
def getAllPublishedDatasets (storeOk : Bool) (db : DB) : Nat × Option (List Dataset) :=
  if storeOk then (200, some (db.datasets.filter (fun d => d.published)))
  else (404, none)

/-- getPublishedDatasetById from src/services/metadataService.ts: 404 when
the id parameter is missing, when the store fails, or when no published
dataset has the id; 200 with the first match otherwise. -/
def getPublishedDatasetById (storeOk : Bool) (db : DB) (id : Option Nat) :
    Nat × Option Dataset :=
  match id with
  | none => (404, none)
  | some i =>
    if storeOk then
      match db.datasets.filter (fun d => d.id == i && d.published) with
      | d :: _ => (200, some d)
      | [] => (404, none)
    else (404, none)

/-- A file together with the estuaryId getFileMetadata attaches to it. -/
structure FileWithEstuary where
  file : CommonsFile
  estuaryId : Option Nat
deriving DecidableEq, Repr

/-- The fileId-to-estuaryId dictionary getFileMetadata builds by iterating
the fetched chunks in order and assigning per contained fileId; a later
assignment overwrites, so the recorded value for an id is the estuaryId of
the last fetched chunk containing it. -/
def lastEstuaryFor (chunks : List Chunk) (fid : Nat) : Option Nat :=
  ((chunks.filter (fun c => c.fileIds.contains fid)).getLast?).map Chunk.estuaryId

/-- getFileMetadata from src/services/metadataService.ts: resolves the
owner's datasets, gathers their chunkIds, fetches chunks by id membership,
gathers those chunks' fileIds, fetches files by id membership, and attaches
to each file the estuaryId recorded for its id during the chunk walk. -/
def getFileMetadata (db : DB) (address : Option String) :
    Nat × Option (List FileWithEstuary) :=
  match address with
  | none => (400, none)
  | some addr0 =>
    if addr0 = "" then (400, none)
    else
      let address := toLowerCase addr0
      let datasets := db.datasets.filter (fun d => d.uploader == address)
      let chunkIds := (datasets.map Dataset.chunkIds).flatten
      let chunks := db.chunks.filter (fun c => chunkIds.contains c.id)
      let fileIds := (chunks.map Chunk.fileIds).flatten
      let files := db.files.filter (fun f => fileIds.contains f.id)
      (200, some (files.map (fun f => ⟨f, lastEstuaryFor chunks f.id⟩)))

/-- Spec-side characterization (spec section 8): the files whose dataset
chain (file -> chunk -> dataset) ends at the given owner address. -/
def specOwnerFiles (db : DB) (address : String) : List CommonsFile :=
  db.files.filter (fun f =>
    db.chunks.any (fun c => c.id == f.chunkId
      && db.datasets.any (fun d => d.id == c.datasetId && d.uploader == address)))

/-- Spec-side characterization (spec section 8): attach to a file the
blob-store id of the chunk its chunkId points back to. -/
def specAttachEstuary (db : DB) (f : CommonsFile) : FileWithEstuary :=
  ⟨f, (db.chunks.find? (fun c => c.id == f.chunkId)).map Chunk.estuaryId⟩

/-- Concrete store with one unpublished dataset, for the C9 scenario of a
store holding no published dataset at all. -/
def qDbNoPublished : DB := ⟨[⟨10, "0xab", false, "t", "d", [], [], none⟩], [], [], []⟩

/-- Helper: on a request that passes every check and targets an unpublished
dataset, deleteFileMetadata runs the full cascade. -/
theorem deleteFileMetadata_cascade_eq
    (verify : String → String → String → Bool) (fOk cOk dOk estOk : Bool)
    (db : DB) (addr sg : String) (eid : Nat) (path : Option String)
    (c0 : Chunk) (cs : List Chunk) (d0 : Dataset) (ds : List Dataset)
    (hA : addr ≠ "") (hS : sg ≠ "")
    (hLen : addr.length = 42) (hPfx : addr.take 2 = "0x")
    (hSig : verify ("/metadata/files?address=" ++ addr ++ "&estuaryId=" ++ toString eid)
      sg (toLowerCase addr) = true)
    (hC : db.chunks.filter (fun c => c.estuaryId == eid) = c0 :: cs)
    (hD : db.datasets.filter (fun d => d.id == c0.datasetId) = d0 :: ds)
    (hPub : d0.published = false) :
    deleteFileMetadata verify fOk cOk dOk estOk db ⟨some addr, some eid, some sg, path⟩
      = ⟨deleteDataset dOk
            (deleteChunks cOk (deleteCommonsFiles fOk db d0.chunkIds) d0.chunkIds)
            c0.datasetId,
         [StoreOp.deleteFilesByChunkIds d0.chunkIds,
          StoreOp.deleteChunksByIds d0.chunkIds,
          StoreOp.deleteDatasetById c0.datasetId,
          StoreOp.estuaryDeleteFile eid],
         if estOk then .deleted else .unknownFailure⟩ := by
  simp only [deleteFileMetadata, hC, hD, hA, hS, hLen, hPfx, hSig, hPub]
  cases estOk <;> simp

/-- Claim C1: a delete request that passes the parameter, address-format,
signature, chunk-resolution and dataset-resolution steps but targets a
dataset whose published flag is true fails with the conflict response
(status 400), issues no delete operation, and leaves the store unchanged. -/
theorem delete_published_dataset_conflict
    (verify : String → String → String → Bool) (fOk cOk dOk estOk : Bool)
    (db : DB) (addr sg : String) (eid : Nat) (path : Option String)
    (c0 : Chunk) (cs : List Chunk) (d0 : Dataset) (ds : List Dataset)
    (hA : addr ≠ "") (hS : sg ≠ "")
    (hLen : addr.length = 42) (hPfx : addr.take 2 = "0x")
    (hSig : verify ("/metadata/files?address=" ++ addr ++ "&estuaryId=" ++ toString eid)
      sg (toLowerCase addr) = true)
    (hC : db.chunks.filter (fun c => c.estuaryId == eid) = c0 :: cs)
    (hD : db.datasets.filter (fun d => d.id == c0.datasetId) = d0 :: ds)
    (hPub : d0.published = true) :
    deleteFileMetadata verify fOk cOk dOk estOk db ⟨some addr, some eid, some sg, path⟩
      = ⟨db, [], .publishedConflict⟩ ∧ DeleteOutcome.status .publishedConflict = 400 := by
  constructor
  · simp only [deleteFileMetadata, hC, hD, hA, hS, hLen, hPfx, hSig, hPub]
    simp
  · rfl

/-- Witness for C1 at a concrete published dataset. -/
theorem delete_published_dataset_conflict_witness :
    deleteFileMetadata wVerify true true true true wDbPub ⟨some wAddr, some 7, some "sg", none⟩
      = ⟨wDbPub, [], .publishedConflict⟩ ∧ DeleteOutcome.status .publishedConflict = 400 :=
  delete_published_dataset_conflict wVerify true true true true wDbPub wAddr "sg" 7 none
    wChunk [] wDatasetPub []
    (by decide) (by decide) (by decide) (by decide) rfl rfl rfl rfl

/-- Claim C2: on a delete request that passes every check and targets an
unpublished dataset, the cascade issues its removals in order: Files whose
chunkId is in the dataset's chunkIds, then those Chunks by id, then the
Dataset by id, then the blob by storage-group id; the store state is the
corresponding composition of the three record deletions. -/
theorem delete_cascade_order
    (verify : String → String → String → Bool) (fOk cOk dOk estOk : Bool)
    (db : DB) (addr sg : String) (eid : Nat) (path : Option String)
    (c0 : Chunk) (cs : List Chunk) (d0 : Dataset) (ds : List Dataset)
    (hA : addr ≠ "") (hS : sg ≠ "")
    (hLen : addr.length = 42) (hPfx : addr.take 2 = "0x")
    (hSig : verify ("/metadata/files?address=" ++ addr ++ "&estuaryId=" ++ toString eid)
      sg (toLowerCase addr) = true)
    (hC : db.chunks.filter (fun c => c.estuaryId == eid) = c0 :: cs)
    (hD : db.datasets.filter (fun d => d.id == c0.datasetId) = d0 :: ds)
    (hPub : d0.published = false) :
    (deleteFileMetadata verify fOk cOk dOk estOk db
        ⟨some addr, some eid, some sg, path⟩).trace
      = [StoreOp.deleteFilesByChunkIds d0.chunkIds,
         StoreOp.deleteChunksByIds d0.chunkIds,
         StoreOp.deleteDatasetById c0.datasetId,
         StoreOp.estuaryDeleteFile eid]
    ∧ (deleteFileMetadata verify fOk cOk dOk estOk db
        ⟨some addr, some eid, some sg, path⟩).db
      = deleteDataset dOk
          (deleteChunks cOk (deleteCommonsFiles fOk db d0.chunkIds) d0.chunkIds)
          c0.datasetId := by
  rw [deleteFileMetadata_cascade_eq verify fOk cOk dOk estOk db addr sg eid path
    c0 cs d0 ds hA hS hLen hPfx hSig hC hD hPub]
  exact ⟨rfl, rfl⟩

/-- Witness for C2 at a concrete unpublished dataset. -/
theorem delete_cascade_order_witness :
    (deleteFileMetadata wVerify true true true true wDbUnpub
        ⟨some wAddr, some 7, some "sg", none⟩).trace
      = [StoreOp.deleteFilesByChunkIds [1],
         StoreOp.deleteChunksByIds [1],
         StoreOp.deleteDatasetById 10,
         StoreOp.estuaryDeleteFile 7]
    ∧ (deleteFileMetadata wVerify true true true true wDbUnpub
        ⟨some wAddr, some 7, some "sg", none⟩).db
      = deleteDataset true (deleteChunks true (deleteCommonsFiles true wDbUnpub [1]) [1]) 10 :=
  delete_cascade_order wVerify true true true true wDbUnpub wAddr "sg" 7 none
    wChunk [] wDatasetUnpub []
    (by decide) (by decide) (by decide) (by decide) rfl rfl rfl rfl

/-- Claim C3: on a delete request that passes every check and targets an
unpublished dataset, the outcome does not depend on the boolean results of
the three intermediate record deletions, and the response is 200 exactly
when the final blob-store deletion succeeds. -/
theorem delete_success_iff_blob_delete
    (verify : String → String → String → Bool) (fOk cOk dOk estOk : Bool)
    (db : DB) (addr sg : String) (eid : Nat) (path : Option String)
    (c0 : Chunk) (cs : List Chunk) (d0 : Dataset) (ds : List Dataset)
    (hA : addr ≠ "") (hS : sg ≠ "")
    (hLen : addr.length = 42) (hPfx : addr.take 2 = "0x")
    (hSig : verify ("/metadata/files?address=" ++ addr ++ "&estuaryId=" ++ toString eid)
      sg (toLowerCase addr) = true)
    (hC : db.chunks.filter (fun c => c.estuaryId == eid) = c0 :: cs)
    (hD : db.datasets.filter (fun d => d.id == c0.datasetId) = d0 :: ds)
    (hPub : d0.published = false) :
    (deleteFileMetadata verify fOk cOk dOk estOk db
        ⟨some addr, some eid, some sg, path⟩).outcome
      = (if estOk then .deleted else .unknownFailure)
    ∧ ((deleteFileMetadata verify fOk cOk dOk estOk db
        ⟨some addr, some eid, some sg, path⟩).outcome.status = 200 ↔ estOk = true) := by
  rw [deleteFileMetadata_cascade_eq verify fOk cOk dOk estOk db addr sg eid path
    c0 cs d0 ds hA hS hLen hPfx hSig hC hD hPub]
  cases estOk <;> simp [DeleteOutcome.status]

/-- Witness for C3 at a concrete unpublished dataset with a failing
blob-store deletion and failing intermediate steps. -/
theorem delete_success_iff_blob_delete_witness :
    (deleteFileMetadata wVerify false false false false wDbUnpub
        ⟨some wAddr, some 7, some "sg", none⟩).outcome
      = (if false then .deleted else .unknownFailure)
    ∧ ((deleteFileMetadata wVerify false false false false wDbUnpub
        ⟨some wAddr, some 7, some "sg", none⟩).outcome.status = 200 ↔ false = true) :=
  delete_success_iff_blob_delete wVerify false false false false wDbUnpub wAddr "sg" 7 none
    wChunk [] wDatasetUnpub []
    (by decide) (by decide) (by decide) (by decide) rfl rfl rfl rfl

/-- Helper: the author-insert loop never changes the datasets collection. -/
theorem insertAuthorsFrom_datasets (insertOk : Nat → Bool) (as : List Author) :
    ∀ (db : DB) (i : Nat), (insertAuthorsFrom insertOk db i as).1.datasets = db.datasets := by
  induction as with
  | nil => intro db i; rfl
  | cons a rest ih =>
    intro db i
    simp only [insertAuthorsFrom]
    cases h : insertOk i
    · simp [h]
    · simp [h, ih]

/-- Helper: a dataset update whose filter matches nothing reports false and
leaves the datasets collection unchanged. -/
theorem updateDataset_no_match (ok : Bool) (db : DB) (u : String) (did : Nat)
    (p : DatasetPatch)
    (h : ∀ d ∈ db.datasets, ¬(d.uploader = u ∧ d.id = did)) :
    (updateDataset ok db u did p).1.datasets = db.datasets
    ∧ (updateDataset ok db u did p).2 = false := by
  have hb : ∀ d ∈ db.datasets, (d.uploader == u && d.id == did) = false := by
    intro d hd
    simpa [Bool.and_eq_true, beq_iff_eq, Decidable.not_and_iff_or_not] using h d hd
  cases ok with
  | false => exact ⟨rfl, rfl⟩
  | true =>
    constructor
    · show (db.datasets.map
        (fun d => if d.uploader == u && d.id == did then applyPatch p d else d))
        = db.datasets
      have h1 : (db.datasets.map
          (fun d => if d.uploader == u && d.id == did then applyPatch p d else d))
          = db.datasets.map (fun d => d) :=
        List.map_congr_left (fun d hd => by simp [hb d hd])
      rw [h1, List.map_id']
    · show db.datasets.any (fun d => d.uploader == u && d.id == did) = false
      rw [List.any_eq_false]
      intro d hd
      simp [hb d hd]

/-- Helper: when no stored dataset matches the update filter, every retry
attempt fails, the datasets collection is unchanged, and the number of
attempts equals the number of allowed retries. -/
theorem publishUpdateLoop_no_match (attemptOk : Nat → Bool) (u : String) (did : Nat)
    (p : DatasetPatch) (idxs : List Nat) :
    ∀ (db : DB), (∀ d ∈ db.datasets, ¬(d.uploader = u ∧ d.id = did)) →
      (publishUpdateLoop attemptOk u did p db idxs).1.datasets = db.datasets
      ∧ (publishUpdateLoop attemptOk u did p db idxs).2.1 = false
      ∧ (publishUpdateLoop attemptOk u did p db idxs).2.2 = idxs.length := by
  induction idxs with
  | nil => intro db h; exact ⟨rfl, rfl, rfl⟩
  | cons i rest ih =>
    intro db h
    have hu := updateDataset_no_match (attemptOk i) db u did p h
    have h2 : ∀ d ∈ (updateDataset (attemptOk i) db u did p).1.datasets,
        ¬(d.uploader = u ∧ d.id = did) := by
      rw [hu.1]; exact h
    obtain ⟨e1, e2, e3⟩ := ih _ h2
    simp only [publishUpdateLoop, hu.2, Bool.false_eq_true, if_false]
    refine ⟨e1.trans hu.1, e2, ?_⟩
    simp [e3]

/-- Claim C4: a publish request whose claimed address is not the uploader of
the dataset named by its datasetId never succeeds: whatever the verifier and
the store oracles answer, the response has status 400 and the stored
datasets are unchanged. -/
theorem publish_nonowner_never_succeeds
    (verify : String → String → String → Bool)
    (insertOk attemptOk : Nat → Bool) (nextId : Nat) (db : DB) (req : PublishReq)
    (hNo : ∀ d ∈ db.datasets,
      ¬(d.uploader = toLowerCase (req.address.getD "") ∧ req.datasetId = some d.id)) :
    (publishDataset verify insertOk attemptOk nextId db req).outcome.status = 400
    ∧ (publishDataset verify insertOk attemptOk nextId db req).db.datasets = db.datasets := by
  obtain ⟨a, s, d?, t, de, au, k⟩ := req
  rcases d? with _ | did
  · cases au <;> exact ⟨rfl, rfl⟩
  · rcases au with _ | astr
    · exact ⟨rfl, rfl⟩
    · have hNo' : ∀ d ∈ db.datasets,
          ¬(d.uploader = toLowerCase (a.getD "") ∧ d.id = did) := by
        intro d hd hc
        exact hNo d hd ⟨hc.1, by rw [hc.2]⟩
      simp only [publishDataset]
      by_cases hm : toLowerCase (a.getD "") = "" ∨ s.getD "" = ""
          ∨ t.getD "" = "" ∨ de.getD "" = ""
      · rw [if_pos hm]; exact ⟨rfl, rfl⟩
      · rw [if_neg hm]
        by_cases hv : verify (a.getD "" ++ toString did) (s.getD "")
            (toLowerCase (a.getD "")) = true
        · rw [if_pos hv]
          have hd : (insertAuthorsFrom insertOk db 0
              (mkAuthors nextId (splitCommas astr))).1.datasets = db.datasets :=
            insertAuthorsFrom_datasets insertOk _ db 0
          have hNoIns : ∀ d ∈ (insertAuthorsFrom insertOk db 0
              (mkAuthors nextId (splitCommas astr))).1.datasets,
              ¬(d.uploader = toLowerCase (a.getD "") ∧ d.id = did) := by
            rw [hd]; exact hNo'
          have hl := publishUpdateLoop_no_match attemptOk (toLowerCase (a.getD "")) did
            ⟨t.getD "", de.getD "", (mkAuthors nextId (splitCommas astr)).map Author.id,
              k.map (fun s => splitCommas s)⟩ [0, 1, 2] _ hNoIns
          by_cases hins : (insertAuthorsFrom insertOk db 0
              (mkAuthors nextId (splitCommas astr))).2 = true
          · rw [if_pos hins]
            rw [hl.2.1]
            simp only [Bool.false_eq_true, if_false]
            exact ⟨rfl, hl.1.trans hd⟩
          · rw [if_neg hins]
            exact ⟨rfl, hd⟩
        · rw [if_neg hv]; exact ⟨rfl, rfl⟩

/-- Witness for C4: the owner of the stored dataset is 0xab but the request
claims 0xcd, with an accepting verifier and a cooperating store. -/
theorem publish_nonowner_never_succeeds_witness :
    (publishDataset wVerify (fun _ => true) (fun _ => true) 50 pDb pReqNonOwner).outcome.status
      = 400
    ∧ (publishDataset wVerify (fun _ => true) (fun _ => true) 50 pDb
        pReqNonOwner).db.datasets = pDb.datasets :=
  publish_nonowner_never_succeeds wVerify (fun _ => true) (fun _ => true) 50 pDb pReqNonOwner
    (by decide)

/-- Claim C5 counterexample: a publish request missing only the keywords
field is not rejected by the missing-parameters validation: with an
accepting verifier and a cooperating store it publishes successfully
(status 200), so absence of keywords does not produce a 400 validation
failure. -/
theorem publish_missing_keywords_not_rejected :
    (publishDataset wVerify (fun _ => true) (fun _ => true) 50 pDb pReqNoKeywords).outcome
      = .published
    ∧ PublishOutcome.status .published = 200
    ∧ pReqNoKeywords.keywords = none :=
  ⟨rfl, rfl, rfl⟩

/-- Claim C5 (amended): a publish request missing any of address, signature,
datasetId, title, description or authors is rejected with the
missing-parameters response (400) with the store untouched, whatever the
verifier and store oracles answer; the keywords field is not part of the
source's validation. -/
theorem publish_missing_param_rejected
    (verify : String → String → String → Bool)
    (insertOk attemptOk : Nat → Bool) (nextId : Nat) (db : DB) (req : PublishReq)
    (hMiss : req.address.getD "" = "" ∨ req.signature.getD "" = ""
      ∨ req.datasetId = none ∨ req.title.getD "" = ""
      ∨ req.description.getD "" = "" ∨ req.authors = none) :
    publishDataset verify insertOk attemptOk nextId db req = ⟨db, .missingParams, 0⟩
    ∧ PublishOutcome.status .missingParams = 400 := by
  refine ⟨?_, rfl⟩
  obtain ⟨a, s, d?, t, de, au, k⟩ := req
  rcases d? with _ | did
  · cases au <;> rfl
  · rcases au with _ | astr
    · rfl
    · simp only [publishDataset]
      rcases hMiss with h | h | h | h | h | h
      · rw [h]
        have he : toLowerCase "" = "" := rfl
        simp [he]
      · rw [h]; simp
      · exact absurd h (by simp)
      · rw [h]; simp
      · rw [h]; simp
      · exact absurd h (by simp)

/-- Witness for the amended C5 at a request missing its title. -/
theorem publish_missing_param_rejected_witness :
    publishDataset wVerify (fun _ => true) (fun _ => true) 50 pDb pReqNoTitle
      = ⟨pDb, .missingParams, 0⟩ ∧ PublishOutcome.status .missingParams = 400 :=
  publish_missing_param_rejected wVerify (fun _ => true) (fun _ => true) 50 pDb pReqNoTitle
    (by decide)

/-- Helper: when every insert in range succeeds, the author-insert loop
appends exactly the given records, in order, and reports success. -/
theorem insertAuthorsFrom_all_ok (insertOk : Nat → Bool) (as : List Author) :
    ∀ (db : DB) (i : Nat), (∀ j, j < as.length → insertOk (i + j) = true) →
      insertAuthorsFrom insertOk db i as = ({ db with authors := db.authors ++ as }, true) := by
  induction as with
  | nil => intro db i _; simp [insertAuthorsFrom]
  | cons a rest ih =>
    intro db i h
    have h0 : insertOk i = true := by simpa using h 0 (by simp)
    have hrest : ∀ j, j < rest.length → insertOk (i + 1 + j) = true := by
      intro j hj
      have := h (j + 1) (by simpa using Nat.succ_lt_succ hj)
      simpa [Nat.add_assoc, Nat.add_comm 1 j] using this
    simp only [insertAuthorsFrom, h0, if_true]
    rw [ih _ (i + 1) hrest]
    simp

/-- Helper: when the first failing insert is at index k, the author-insert
loop stops there, keeps the first k records, and reports failure. -/
theorem insertAuthorsFrom_fail_at (insertOk : Nat → Bool) (as : List Author) :
    ∀ (db : DB) (i k : Nat), k < as.length →
      (∀ j, j < k → insertOk (i + j) = true) → insertOk (i + k) = false →
      insertAuthorsFrom insertOk db i as
        = ({ db with authors := db.authors ++ as.take k }, false) := by
  induction as with
  | nil => intro db i k hk _hok _hfail; exact absurd hk (by simp)
  | cons a rest ih =>
    intro db i k hk hok hfail
    cases k with
    | zero =>
      have h0 : insertOk i = false := by simpa using hfail
      simp [insertAuthorsFrom, h0]
    | succ k2 =>
      have h0 : insertOk i = true := by simpa using hok 0 (Nat.succ_pos k2)
      have hok2 : ∀ j, j < k2 → insertOk (i + 1 + j) = true := by
        intro j hj
        have := hok (j + 1) (Nat.succ_lt_succ hj)
        simpa [Nat.add_assoc, Nat.add_comm 1 j] using this
      have hfail2 : insertOk (i + 1 + k2) = false := by
        simpa [Nat.add_assoc, Nat.add_comm 1 k2] using hfail
      simp only [insertAuthorsFrom, h0, if_true]
      rw [ih _ (i + 1) k2 (by simpa using Nat.lt_of_succ_lt_succ hk) hok2 hfail2]
      simp

/-- Helper: the attempts counter of the retry loop never exceeds the number
of allowed attempts. -/
theorem publishUpdateLoop_attempts_le (attemptOk : Nat → Bool) (u : String) (did : Nat)
    (p : DatasetPatch) :
    ∀ (idxs : List Nat) (db : DB),
      (publishUpdateLoop attemptOk u did p db idxs).2.2 ≤ idxs.length := by
  intro idxs
  induction idxs with
  | nil => intro db; simp [publishUpdateLoop]
  | cons i rest ih =>
    intro db
    simp only [publishUpdateLoop]
    by_cases h : (updateDataset (attemptOk i) db u did p).2 = true
    · rw [if_pos h]; simp
    · rw [if_neg h]
      have := ih (updateDataset (attemptOk i) db u did p).1
      simpa [Nat.succ_le_succ_iff] using Nat.succ_le_succ this

/-- Helper: when the store fails every allowed attempt, the retry loop
changes nothing and uses all attempts. -/
theorem publishUpdateLoop_all_fail (attemptOk : Nat → Bool) (u : String) (did : Nat)
    (p : DatasetPatch) :
    ∀ (idxs : List Nat) (db : DB), (∀ i ∈ idxs, attemptOk i = false) →
      publishUpdateLoop attemptOk u did p db idxs = (db, false, idxs.length) := by
  intro idxs
  induction idxs with
  | nil => intro db _; rfl
  | cons i rest ih =>
    intro db h
    have h0 : attemptOk i = false := h i (by simp)
    have hu : updateDataset (attemptOk i) db u did p = (db, false) := by
      rw [h0]; rfl
    simp only [publishUpdateLoop, hu]
    rw [ih db (fun j hj => h j (by simp [hj]))]
    simp

/-- Helper: a first attempt answered by the store with a matching filter
succeeds immediately with one attempt. -/
theorem publishUpdateLoop_first_ok (attemptOk : Nat → Bool) (u : String) (did : Nat)
    (p : DatasetPatch) (db : DB) (i : Nat) (rest : List Nat)
    (hok : attemptOk i = true)
    (hM : db.datasets.any (fun d => d.uploader == u && d.id == did) = true) :
    publishUpdateLoop attemptOk u did p db (i :: rest)
      = ((updateDataset true db u did p).1, true, 1) := by
  simp only [publishUpdateLoop, hok]
  simp only [updateDataset, if_true, hM]

/-- Helper: every row of the patched dataset list that matches the update
filter carries the patch's author-id list. -/
theorem patched_row_authors (db : DB) (u : String) (did : Nat) (p : DatasetPatch) :
    ∀ d2 ∈ (updateDataset true db u did p).1.datasets,
      d2.uploader = u → d2.id = did → d2.authors = p.authors := by
  intro d2 hd2 hu hid
  simp only [updateDataset, if_true] at hd2
  obtain ⟨d, hd, hmap⟩ := List.mem_map.mp hd2
  by_cases hc : (d.uploader == u && d.id == did) = true
  · rw [if_pos hc] at hmap
    rw [← hmap]
    rfl
  · rw [if_neg hc] at hmap
    subst hmap
    exact absurd (by simp [Bool.and_eq_true, beq_iff_eq, hu, hid]) hc

/-- Helper: on a request that passes the parameter and signature checks and
whose author inserts all succeed, publishDataset appends the new author
records and runs the bounded retry loop. -/
theorem publishDataset_reaches_update
    (verify : String → String → String → Bool)
    (insertOk attemptOk : Nat → Bool) (nextId : Nat) (db : DB)
    (a s t de astr : String) (did : Nat) (kw : Option String)
    (ha : toLowerCase a ≠ "") (hs : s ≠ "") (ht : t ≠ "") (hde : de ≠ "")
    (hv : verify (a ++ toString did) s (toLowerCase a) = true)
    (hIns : ∀ j, j < (splitCommas astr).length → insertOk j = true) :
    publishDataset verify insertOk attemptOk nextId db
      ⟨some a, some s, some did, some t, some de, some astr, kw⟩
    = (if (publishUpdateLoop attemptOk (toLowerCase a) did
          ⟨t, de, (mkAuthors nextId (splitCommas astr)).map Author.id,
            kw.map (fun s2 => splitCommas s2)⟩
          { db with authors := db.authors ++ mkAuthors nextId (splitCommas astr) }
          [0, 1, 2]).2.1 then
        ⟨(publishUpdateLoop attemptOk (toLowerCase a) did
            ⟨t, de, (mkAuthors nextId (splitCommas astr)).map Author.id,
              kw.map (fun s2 => splitCommas s2)⟩
            { db with authors := db.authors ++ mkAuthors nextId (splitCommas astr) }
            [0, 1, 2]).1, .published,
          (publishUpdateLoop attemptOk (toLowerCase a) did
            ⟨t, de, (mkAuthors nextId (splitCommas astr)).map Author.id,
              kw.map (fun s2 => splitCommas s2)⟩
            { db with authors := db.authors ++ mkAuthors nextId (splitCommas astr) }
            [0, 1, 2]).2.2⟩
      else
        ⟨(publishUpdateLoop attemptOk (toLowerCase a) did
            ⟨t, de, (mkAuthors nextId (splitCommas astr)).map Author.id,
              kw.map (fun s2 => splitCommas s2)⟩
            { db with authors := db.authors ++ mkAuthors nextId (splitCommas astr) }
            [0, 1, 2]).1, .publishFailed,
          (publishUpdateLoop attemptOk (toLowerCase a) did
            ⟨t, de, (mkAuthors nextId (splitCommas astr)).map Author.id,
              kw.map (fun s2 => splitCommas s2)⟩
            { db with authors := db.authors ++ mkAuthors nextId (splitCommas astr) }
            [0, 1, 2]).2.2⟩) := by
  simp only [publishDataset, Option.getD_some]
  rw [if_neg (by simp [ha, hs, ht, hde])]
  rw [if_pos hv]
  have hIns0 : ∀ j, j < (mkAuthors nextId (splitCommas astr)).length → insertOk (0 + j) = true := by
    intro j hj
    simp only [Nat.zero_add]
    exact hIns j (by simpa [mkAuthors] using hj)
  rw [insertAuthorsFrom_all_ok insertOk _ db 0 hIns0]
  simp

/-- Helper: a retry attempt the store answers with a transient failure
leaves the state unchanged and adds one to the attempt count. -/
theorem publishUpdateLoop_step_fail (attemptOk : Nat → Bool) (u : String) (did : Nat)
    (p : DatasetPatch) (db : DB) (i : Nat) (rest : List Nat)
    (h : attemptOk i = false) :
    publishUpdateLoop attemptOk u did p db (i :: rest)
      = ((publishUpdateLoop attemptOk u did p db rest).1,
         (publishUpdateLoop attemptOk u did p db rest).2.1,
         (publishUpdateLoop attemptOk u did p db rest).2.2 + 1) := by
  have hu : updateDataset (attemptOk i) db u did p = (db, false) := by
    rw [h]; rfl
  simp only [publishUpdateLoop, hu]
  simp

/-- Helper: the author records built for a name list carry exactly those
names in order and the ids nextId, nextId+1, ... in order. -/
theorem mkAuthors_spec (nextId : Nat) (names : List String) :
    (mkAuthors nextId names).length = names.length
    ∧ (mkAuthors nextId names).map Author.name = names
    ∧ (mkAuthors nextId names).map Author.id
        = (List.range names.length).map (fun j => nextId + j) := by
  refine ⟨by simp [mkAuthors], ?_, ?_⟩
  · simp only [mkAuthors, List.map_map]
    have : (Author.name ∘ fun p : Nat × String => (⟨nextId + p.1, p.2⟩ : Author))
        = Prod.snd := rfl
    rw [this, List.enum_map_snd]
  · simp only [mkAuthors, List.map_map]
    have : (Author.id ∘ fun p : Nat × String => (⟨nextId + p.1, p.2⟩ : Author))
        = (fun j => nextId + j) ∘ Prod.fst := rfl
    rw [this, ← List.map_map, List.enum_map_fst]

/-- Claim C6: a publish request for author names astr that passes validation
and signature, on a store whose first update attempt is answered and where
a dataset matches the owner filter: with every insert succeeding, exactly
one author record per name is created, carrying the given names in order
and fresh pairwise-distinct ids; all are appended to the store; and every
matching dataset row's author-id list becomes those ids in order. With an
oracle failing first at index kf, the publish aborts with the 400
author-insert failure and the kf records already inserted are kept. -/
theorem publish_authors_workflow
    (verify : String → String → String → Bool)
    (insertOk insertOk2 attemptOk : Nat → Bool) (nextId : Nat) (db : DB)
    (a s t de astr : String) (did : Nat) (kw : Option String)
    (ha : toLowerCase a ≠ "") (hs : s ≠ "") (ht : t ≠ "") (hde : de ≠ "")
    (hv : verify (a ++ toString did) s (toLowerCase a) = true)
    (hIns : ∀ j, j < (splitCommas astr).length → insertOk j = true)
    (hAt : attemptOk 0 = true)
    (hM : db.datasets.any (fun d => d.uploader == toLowerCase a && d.id == did) = true)
    (hFresh : ∀ x ∈ db.authors, x.id < nextId) :
    (mkAuthors nextId (splitCommas astr)).length = (splitCommas astr).length
    ∧ (mkAuthors nextId (splitCommas astr)).map Author.name = splitCommas astr
    ∧ ((mkAuthors nextId (splitCommas astr)).map Author.id).Nodup
    ∧ (∀ b ∈ mkAuthors nextId (splitCommas astr), ∀ x ∈ db.authors, b.id ≠ x.id)
    ∧ (publishDataset verify insertOk attemptOk nextId db
        ⟨some a, some s, some did, some t, some de, some astr, kw⟩).db.authors
      = db.authors ++ mkAuthors nextId (splitCommas astr)
    ∧ (publishDataset verify insertOk attemptOk nextId db
        ⟨some a, some s, some did, some t, some de, some astr, kw⟩).outcome
      = .published
    ∧ (∀ d2 ∈ (publishDataset verify insertOk attemptOk nextId db
        ⟨some a, some s, some did, some t, some de, some astr, kw⟩).db.datasets,
        d2.uploader = toLowerCase a → d2.id = did →
          d2.authors = (mkAuthors nextId (splitCommas astr)).map Author.id)
    ∧ (∀ kf, kf < (splitCommas astr).length →
        (∀ j, j < kf → insertOk2 j = true) → insertOk2 kf = false →
        publishDataset verify insertOk2 attemptOk nextId db
          ⟨some a, some s, some did, some t, some de, some astr, kw⟩
          = ⟨{ db with authors :=
                db.authors ++ (mkAuthors nextId (splitCommas astr)).take kf },
             .authorInsertFailed, 0⟩
        ∧ PublishOutcome.status .authorInsertFailed = 400) := by
  obtain ⟨hlen, hname, hid⟩ := mkAuthors_spec nextId (splitCommas astr)
  have hnodup : ((mkAuthors nextId (splitCommas astr)).map Author.id).Nodup := by
    rw [hid]
    exact (List.nodup_range _).map (fun j1 j2 h12 => by omega)
  have hfresh2 : ∀ b ∈ mkAuthors nextId (splitCommas astr), ∀ x ∈ db.authors, b.id ≠ x.id := by
    intro b hb x hx
    have : b.id ∈ (mkAuthors nextId (splitCommas astr)).map Author.id :=
      List.mem_map_of_mem Author.id hb
    rw [hid] at this
    obtain ⟨j, _, hj2⟩ := List.mem_map.mp this
    have := hFresh x hx
    omega
  rw [publishDataset_reaches_update verify insertOk attemptOk nextId db
    a s t de astr did kw ha hs ht hde hv hIns]
  set dbIns : DB := { db with authors := db.authors ++ mkAuthors nextId (splitCommas astr) }
    with hdbIns
  have hM2 : dbIns.datasets.any (fun d => d.uploader == toLowerCase a && d.id == did)
      = true := hM
  rw [publishUpdateLoop_first_ok attemptOk (toLowerCase a) did _ dbIns 0 [1, 2] hAt hM2]
  refine ⟨hlen, hname, hnodup, hfresh2, ?_, ?_, ?_, ?_⟩
  · simp [updateDataset]
  · simp
  · intro d2 hd2 hu2 hi2
    simp only [if_true] at hd2
    exact patched_row_authors _ (toLowerCase a) did _ d2 (by simpa using hd2) hu2 hi2
  · intro kf hkf hok2 hfail2
    constructor
    · simp only [publishDataset, Option.getD_some]
      rw [if_neg (by simp [ha, hs, ht, hde])]
      rw [if_pos hv]
      rw [insertAuthorsFrom_fail_at insertOk2 _ db 0 kf (by rw [hlen]; exact hkf)
        (fun j hj => by simpa using hok2 j hj) (by simpa using hfail2)]
      simp
    · rfl

/-- Witness for C6: two authors "alice,bob" published by the owner of the
concrete store pDb; the insert-failure clause is exercised by the theorem's
second oracle, here constantly false. -/
theorem publish_authors_workflow_witness :
    (publishDataset wVerify (fun _ => true) (fun _ => true) 50 pDb
      ⟨some "0xab", some "sg", some 10, some "T", some "D", some "alice,bob", none⟩).db.authors
      = pDb.authors ++ mkAuthors 50 (splitCommas "alice,bob")
    ∧ (publishDataset wVerify (fun _ => true) (fun _ => true) 50 pDb
      ⟨some "0xab", some "sg", some 10, some "T", some "D", some "alice,bob", none⟩).outcome
      = .published := by
  have h := publish_authors_workflow wVerify (fun _ => true) (fun _ => false) (fun _ => true)
    50 pDb "0xab" "sg" "T" "D" "alice,bob" 10 none (by decide) (by decide) (by decide)
    (by decide) rfl (by decide) rfl (by decide) (by decide)
  exact ⟨h.2.2.2.2.1, h.2.2.2.2.2.1⟩

/-- Claim C7: a publish request that reaches the dataset update attempts it
at most 3 times; the first store-answered attempt with a matching dataset
short-circuits with the 200 success after exactly i+1 attempts; and when a
matching dataset never exists or the store fails all three attempts, the
operation reports the 400 failure after exactly 3 attempts. -/
theorem publish_update_retry_bound
    (verify : String → String → String → Bool)
    (insertOk attemptOk : Nat → Bool) (nextId : Nat) (db : DB)
    (a s t de astr : String) (did : Nat) (kw : Option String)
    (ha : toLowerCase a ≠ "") (hs : s ≠ "") (ht : t ≠ "") (hde : de ≠ "")
    (hv : verify (a ++ toString did) s (toLowerCase a) = true)
    (hIns : ∀ j, j < (splitCommas astr).length → insertOk j = true) :
    (publishDataset verify insertOk attemptOk nextId db
      ⟨some a, some s, some did, some t, some de, some astr, kw⟩).attempts ≤ 3
    ∧ (∀ i, i < 3 →
        db.datasets.any (fun d => d.uploader == toLowerCase a && d.id == did) = true →
        attemptOk i = true → (∀ j, j < i → attemptOk j = false) →
        (publishDataset verify insertOk attemptOk nextId db
          ⟨some a, some s, some did, some t, some de, some astr, kw⟩).outcome = .published
        ∧ (publishDataset verify insertOk attemptOk nextId db
          ⟨some a, some s, some did, some t, some de, some astr, kw⟩).attempts = i + 1
        ∧ PublishOutcome.status .published = 200)
    ∧ ((db.datasets.any (fun d => d.uploader == toLowerCase a && d.id == did) = false
        ∨ (∀ i, i < 3 → attemptOk i = false)) →
        (publishDataset verify insertOk attemptOk nextId db
          ⟨some a, some s, some did, some t, some de, some astr, kw⟩).outcome = .publishFailed
        ∧ (publishDataset verify insertOk attemptOk nextId db
          ⟨some a, some s, some did, some t, some de, some astr, kw⟩).attempts = 3
        ∧ PublishOutcome.status .publishFailed = 400) := by
  rw [publishDataset_reaches_update verify insertOk attemptOk nextId db
    a s t de astr did kw ha hs ht hde hv hIns]
  set dbIns : DB := { db with authors := db.authors ++ mkAuthors nextId (splitCommas astr) }
    with hdbIns
  refine ⟨?_, ?_, ?_⟩
  · by_cases hL : (publishUpdateLoop attemptOk (toLowerCase a) did
        ⟨t, de, (mkAuthors nextId (splitCommas astr)).map Author.id,
          kw.map (fun s2 => splitCommas s2)⟩ dbIns [0, 1, 2]).2.1 = true
    · rw [if_pos hL]
      exact publishUpdateLoop_attempts_le attemptOk (toLowerCase a) did _ [0, 1, 2] _
    · rw [if_neg hL]
      exact publishUpdateLoop_attempts_le attemptOk (toLowerCase a) did _ [0, 1, 2] _
  · intro i hi hMany hAi hPrev
    have hMany2 : dbIns.datasets.any
        (fun d => d.uploader == toLowerCase a && d.id == did) = true := hMany
    rcases i with _ | _ | _ | i4
    · rw [publishUpdateLoop_first_ok attemptOk (toLowerCase a) did _ dbIns 0 [1, 2]
        hAi hMany2]
      exact ⟨by simp, by simp, rfl⟩
    · rw [publishUpdateLoop_step_fail attemptOk (toLowerCase a) did _ dbIns 0 [1, 2]
        (hPrev 0 (by omega))]
      rw [publishUpdateLoop_first_ok attemptOk (toLowerCase a) did _ dbIns 1 [2]
        hAi hMany2]
      exact ⟨by simp, by simp, rfl⟩
    · rw [publishUpdateLoop_step_fail attemptOk (toLowerCase a) did _ dbIns 0 [1, 2]
        (hPrev 0 (by omega))]
      rw [publishUpdateLoop_step_fail attemptOk (toLowerCase a) did _ dbIns 1 [2]
        (hPrev 1 (by omega))]
      rw [publishUpdateLoop_first_ok attemptOk (toLowerCase a) did _ dbIns 2 []
        hAi hMany2]
      exact ⟨by simp, by simp, rfl⟩
    · omega
  · intro hAll
    rcases hAll with hMf | hAf
    · have hNo : ∀ d ∈ dbIns.datasets, ¬(d.uploader = toLowerCase a ∧ d.id = did) := by
        intro d hd hc
        have := List.any_eq_false.mp hMf d hd
        simp [Bool.and_eq_true, beq_iff_eq, hc.1, hc.2] at this
      have hl := publishUpdateLoop_no_match attemptOk (toLowerCase a) did
        ⟨t, de, (mkAuthors nextId (splitCommas astr)).map Author.id,
          kw.map (fun s2 => splitCommas s2)⟩ [0, 1, 2] dbIns hNo
      rw [hl.2.1]
      exact ⟨by simp, by simp [hl.2.2], rfl⟩
    · have hmem : ∀ i ∈ [0, 1, 2], attemptOk i = false := by
        intro i him
        have hi3 : i < 3 := by
          rcases List.mem_cons.mp him with h1 | h1
          · omega
          rcases List.mem_cons.mp h1 with h2 | h2
          · omega
          rcases List.mem_cons.mp h2 with h3 | h3
          · omega
          · exact absurd h3 (List.not_mem_nil i)
        exact hAf i hi3
      rw [publishUpdateLoop_all_fail attemptOk (toLowerCase a) did _ [0, 1, 2] dbIns hmem]
      exact ⟨by simp, by simp, rfl⟩

/-- Witness for C7: a first-attempt success on the concrete store pDb. -/
theorem publish_update_retry_bound_witness :
    (publishDataset wVerify (fun _ => true) (fun _ => true) 50 pDb
      ⟨some "0xab", some "sg", some 10, some "T", some "D", some "alice,bob", none⟩).attempts ≤ 3
    ∧ (publishDataset wVerify (fun _ => true) (fun _ => true) 50 pDb
      ⟨some "0xab", some "sg", some 10, some "T", some "D", some "alice,bob", none⟩).outcome
      = .published
    ∧ (publishDataset wVerify (fun _ => true) (fun _ => true) 50 pDb
      ⟨some "0xab", some "sg", some 10, some "T", some "D", some "alice,bob", none⟩).attempts
      = 0 + 1 := by
  have h := publish_update_retry_bound wVerify (fun _ => true) (fun _ => true)
    50 pDb "0xab" "sg" "T" "D" "alice,bob" 10 none (by decide) (by decide) (by decide)
    (by decide) rfl (by decide)
  have h2 := h.2.1 0 (by omega) (by decide) rfl (fun j hj => absurd hj (by omega))
  exact ⟨h.1, h2.1, h2.2.1⟩

/-- Claim C8: when the given datasetId does not resolve to a published
dataset (no dataset with that id, or an unpublished one), the list-chunks
operation answers not-found (404) and returns no chunk records. -/
theorem chunks_denied_for_unpublished (db : DB) (did : Nat)
    (h : ∀ d ∈ db.datasets, d.id = did → d.published = false) :
    getPublishedChunksByDatasetId db (some did) = .notFound
    ∧ ChunksOutcome.status .notFound = 404 := by
  refine ⟨?_, rfl⟩
  have hnil : db.datasets.filter (fun d => d.id == did && d.published) = [] := by
    rw [List.filter_eq_nil_iff]
    intro d hd
    by_cases hid : d.id = did
    · simp [hid, h d hd hid]
    · simp [hid]
  simp only [getPublishedChunksByDatasetId, hnil]

/-- Witness for C8 at a concrete store whose only dataset with the queried
id is unpublished. -/
theorem chunks_denied_for_unpublished_witness :
    getPublishedChunksByDatasetId wDbUnpub (some 10) = .notFound
    ∧ ChunksOutcome.status .notFound = 404 :=
  chunks_denied_for_unpublished wDbUnpub 10 (by decide)

/-- Claim C9 counterexample: on a store whose only dataset is unpublished,
the list-all-published operation with a working store answers 200 with the
empty list, not the 404 "none found" the claim requires. -/
theorem published_list_empty_still_200 :
    qDbNoPublished.datasets.all (fun d => !d.published) = true
    ∧ getAllPublishedDatasets true qDbNoPublished = (200, some [])
    ∧ (getAllPublishedDatasets true qDbNoPublished).1 ≠ 404 := by
  refine ⟨rfl, rfl, by decide⟩

/-- Claim C9 (amended): the get-by-id operation answers 404 when no
published dataset has the requested id; the list-all operation answers 404
only when the store query fails, and answers 200 with the (possibly empty)
published list when the store works. -/
theorem get_published_datasets_behaviour (storeOk : Bool) (db : DB) (i : Nat)
    (hNo : ∀ d ∈ db.datasets, d.id = i → d.published = false) :
    getPublishedDatasetById storeOk db (some i) = (404, none)
    ∧ getAllPublishedDatasets true db
      = (200, some (db.datasets.filter (fun d => d.published)))
    ∧ getAllPublishedDatasets false db = (404, none) := by
  refine ⟨?_, rfl, rfl⟩
  have hnil : db.datasets.filter (fun d => d.id == i && d.published) = [] := by
    rw [List.filter_eq_nil_iff]
    intro d hd
    by_cases hid : d.id = i
    · simp [hid, hNo d hd hid]
    · simp [hid]
  cases storeOk with
  | false => rfl
  | true => simp only [getPublishedDatasetById, hnil, if_true]

/-- Witness for the amended C9 at the concrete unpublished-only store. -/
theorem get_published_datasets_behaviour_witness :
    getPublishedDatasetById true qDbNoPublished (some 10) = (404, none)
    ∧ getAllPublishedDatasets true qDbNoPublished
      = (200, some (qDbNoPublished.datasets.filter (fun d => d.published)))
    ∧ getAllPublishedDatasets false qDbNoPublished = (404, none) :=
  get_published_datasets_behaviour true qDbNoPublished 10 (by decide)

/-- Helper: membership in the flattened image of a list-valued map. -/
theorem mem_flatten_map {α β : Type} (l : List α) (g : α → List β) (b : β) :
    b ∈ (l.map g).flatten ↔ ∃ x ∈ l, b ∈ g x := by
  rw [List.mem_flatten]
  constructor
  · rintro ⟨s, hs, has⟩
    obtain ⟨x, hx, rfl⟩ := List.mem_map.mp hs
    exact ⟨x, hx, has⟩
  · rintro ⟨x, hx, hax⟩
    exact ⟨g x, List.mem_map_of_mem g hx, hax⟩

/-- Helper: boolean containment agrees with membership. -/
theorem contains_iff_mem (l : List Nat) (a : Nat) : l.contains a = true ↔ a ∈ l :=
  List.elem_iff

/-- Helper: a file id reached by getFileMetadata's forward walk (owner
datasets, their chunkIds, those chunks' fileIds) is exactly a file whose
back-pointer chain ends at a dataset of the owner, given coherent links. -/
theorem owner_chain_iff (db : DB) (address : String) (f : CommonsFile)
    (hf : f ∈ db.files)
    (hCk : ∀ c ∈ db.chunks, ∀ d ∈ db.datasets, (c.id ∈ d.chunkIds ↔ c.datasetId = d.id))
    (hFk : ∀ f2 ∈ db.files, ∀ c ∈ db.chunks, (f2.id ∈ c.fileIds ↔ f2.chunkId = c.id)) :
    f.id ∈ (((db.chunks.filter (fun c =>
        (((db.datasets.filter (fun d => d.uploader == address)).map
          Dataset.chunkIds).flatten).contains c.id)).map Chunk.fileIds).flatten)
    ↔ ∃ c ∈ db.chunks, f.chunkId = c.id
        ∧ ∃ d ∈ db.datasets, c.datasetId = d.id ∧ d.uploader = address := by
  rw [mem_flatten_map]
  constructor
  · rintro ⟨c, hcSel, hfs⟩
    obtain ⟨hc, hcid⟩ := List.mem_filter.mp hcSel
    rw [contains_iff_mem, mem_flatten_map] at hcid
    obtain ⟨d, hdSel, hcd⟩ := hcid
    obtain ⟨hd, hdu⟩ := List.mem_filter.mp hdSel
    exact ⟨c, hc, (hFk f hf c hc).mp hfs, d, hd, (hCk c hc d hd).mp hcd,
      beq_iff_eq.mp hdu⟩
  · rintro ⟨c, hc, hfc, d, hd, hcd, hdu⟩
    refine ⟨c, List.mem_filter.mpr ⟨hc, ?_⟩, (hFk f hf c hc).mpr hfc⟩
    rw [contains_iff_mem, mem_flatten_map]
    exact ⟨d, List.mem_filter.mpr ⟨hd, beq_iff_eq.mpr hdu⟩, (hCk c hc d hd).mpr hcd⟩

/-- Helper: the spec-side owner predicate decomposed into the chain. -/
theorem specPred_iff (db : DB) (address : String) (f : CommonsFile) :
    (db.chunks.any (fun c => c.id == f.chunkId
      && db.datasets.any (fun d => d.id == c.datasetId && d.uploader == address))) = true
    ↔ ∃ c ∈ db.chunks, f.chunkId = c.id
        ∧ ∃ d ∈ db.datasets, c.datasetId = d.id ∧ d.uploader = address := by
  rw [List.any_eq_true]
  constructor
  · rintro ⟨c, hc, hcb⟩
    rw [Bool.and_eq_true] at hcb
    obtain ⟨hcid, hany⟩ := hcb
    rw [List.any_eq_true] at hany
    obtain ⟨d, hd, hdb⟩ := hany
    rw [Bool.and_eq_true] at hdb
    exact ⟨c, hc, (beq_iff_eq.mp hcid).symm, d, hd, (beq_iff_eq.mp hdb.1).symm,
      beq_iff_eq.mp hdb.2⟩
  · rintro ⟨c, hc, hfc, d, hd, hcd, hdu⟩
    refine ⟨c, hc, ?_⟩
    rw [Bool.and_eq_true]
    refine ⟨beq_iff_eq.mpr hfc.symm, ?_⟩
    rw [List.any_eq_true]
    refine ⟨d, hd, ?_⟩
    rw [Bool.and_eq_true]
    exact ⟨beq_iff_eq.mpr hcd.symm, beq_iff_eq.mpr hdu⟩

/-- Helper: the last element of a nonempty list whose members are all c. -/
theorem getLast?_of_all_eq (l : List Chunk) (c : Chunk) (hne : l ≠ [])
    (hall : ∀ x ∈ l, x = c) : l.getLast? = some c := by
  cases hl : l.getLast? with
  | none => exact absurd (List.getLast?_eq_none_iff.mp hl) hne
  | some a => rw [hall a (List.mem_of_mem_getLast? hl)]

/-- Helper: when chunk ids are unique and file links coherent, the
fileId-to-estuaryId dictionary records for a file the estuaryId of its own
chunk, for any chunk selection containing that chunk. -/
theorem lastEstuaryFor_eq (db : DB) (p : Chunk → Bool) (f : CommonsFile) (c : Chunk)
    (hNodupC : (db.chunks.map Chunk.id).Nodup)
    (hFk : ∀ f2 ∈ db.files, ∀ c2 ∈ db.chunks, (f2.id ∈ c2.fileIds ↔ f2.chunkId = c2.id))
    (hf : f ∈ db.files) (hc : c ∈ db.chunks) (hfc : f.chunkId = c.id)
    (hcSel : c ∈ db.chunks.filter p) :
    lastEstuaryFor (db.chunks.filter p) f.id = some c.estuaryId := by
  have hcontains : c.fileIds.contains f.id = true :=
    (contains_iff_mem _ _).mpr ((hFk f hf c hc).mpr hfc)
  have hmemL : c ∈ (db.chunks.filter p).filter (fun c2 => c2.fileIds.contains f.id) :=
    List.mem_filter.mpr ⟨hcSel, hcontains⟩
  have hall : ∀ x ∈ (db.chunks.filter p).filter (fun c2 => c2.fileIds.contains f.id),
      x = c := by
    intro x hx
    obtain ⟨hx1, hx2⟩ := List.mem_filter.mp hx
    have hxc : x ∈ db.chunks := (List.mem_filter.mp hx1).1
    have hfx : f.chunkId = x.id := (hFk f hf x hxc).mp ((contains_iff_mem _ _).mp hx2)
    exact List.inj_on_of_nodup_map hNodupC hxc hc (by rw [← hfx, ← hfc])
  have hne : (db.chunks.filter p).filter (fun c2 => c2.fileIds.contains f.id) ≠ [] := by
    intro h0
    rw [h0] at hmemL
    exact absurd hmemL (List.not_mem_nil c)
  unfold lastEstuaryFor
  rw [getLast?_of_all_eq _ c hne hall]
  rfl

/-- Helper: when chunk ids are unique, looking a file's chunkId up in the
chunk collection finds exactly the file's chunk. -/
theorem find?_chunk_eq (db : DB) (f : CommonsFile) (c : Chunk)
    (hNodupC : (db.chunks.map Chunk.id).Nodup)
    (hc : c ∈ db.chunks) (hfc : f.chunkId = c.id) :
    db.chunks.find? (fun c2 => c2.id == f.chunkId) = some c := by
  cases hfind : db.chunks.find? (fun c2 => c2.id == f.chunkId) with
  | none =>
    have := List.find?_eq_none.mp hfind c hc
    exact absurd (beq_iff_eq.mpr hfc.symm) this
  | some a =>
    have ha : a ∈ db.chunks := List.mem_of_find?_eq_some hfind
    have hpa := List.find?_some hfind
    have hac : a = c := List.inj_on_of_nodup_map hNodupC ha hc
      (by rw [beq_iff_eq.mp hpa, hfc])
    rw [hac]

/-- Claim C10: with coherent links (a chunk's id is listed in exactly the
datasets it points back to, a file's id in exactly the chunks it points
back to) and unique chunk ids, the files-by-owner operation answers 200
with exactly the files whose chunk belongs to a dataset uploaded by the
lowercased address, each carrying the estuaryId of the chunk containing
it. -/
theorem getFileMetadata_owner_chain (db : DB) (addr0 : String) (hne : addr0 ≠ "")
    (hCk : ∀ c ∈ db.chunks, ∀ d ∈ db.datasets, (c.id ∈ d.chunkIds ↔ c.datasetId = d.id))
    (hFk : ∀ f ∈ db.files, ∀ c ∈ db.chunks, (f.id ∈ c.fileIds ↔ f.chunkId = c.id))
    (hNodupC : (db.chunks.map Chunk.id).Nodup) :
    getFileMetadata db (some addr0)
      = (200, some ((specOwnerFiles db (toLowerCase addr0)).map (specAttachEstuary db))) := by
  simp only [getFileMetadata]
  rw [if_neg hne]
  have hfiles : db.files.filter (fun f =>
      (((db.chunks.filter (fun c =>
        (((db.datasets.filter (fun d => d.uploader == toLowerCase addr0)).map
          Dataset.chunkIds).flatten).contains c.id)).map Chunk.fileIds).flatten).contains f.id)
      = specOwnerFiles db (toLowerCase addr0) := by
    unfold specOwnerFiles
    refine List.filter_congr ?_
    intro f hf
    rw [Bool.eq_iff_iff, contains_iff_mem,
      owner_chain_iff db (toLowerCase addr0) f hf hCk hFk,
      specPred_iff db (toLowerCase addr0) f]
  rw [hfiles]
  have hmap : ∀ f ∈ specOwnerFiles db (toLowerCase addr0),
      (⟨f, lastEstuaryFor (db.chunks.filter (fun c =>
        (((db.datasets.filter (fun d => d.uploader == toLowerCase addr0)).map
          Dataset.chunkIds).flatten).contains c.id)) f.id⟩ : FileWithEstuary)
      = specAttachEstuary db f := by
    intro f hf0
    have hf0m := hf0
    unfold specOwnerFiles at hf0m
    obtain ⟨hf, hpred⟩ := List.mem_filter.mp hf0m
    obtain ⟨c, hc, hfc, d, hd, hcd, hdu⟩ := (specPred_iff db (toLowerCase addr0) f).mp hpred
    have hcSel : c ∈ db.chunks.filter (fun c2 =>
        (((db.datasets.filter (fun d2 => d2.uploader == toLowerCase addr0)).map
          Dataset.chunkIds).flatten).contains c2.id) := by
      refine List.mem_filter.mpr ⟨hc, ?_⟩
      rw [contains_iff_mem, mem_flatten_map]
      exact ⟨d, List.mem_filter.mpr ⟨hd, beq_iff_eq.mpr hdu⟩, (hCk c hc d hd).mpr hcd⟩
    have h1 := lastEstuaryFor_eq db (fun c2 =>
        (((db.datasets.filter (fun d2 => d2.uploader == toLowerCase addr0)).map
          Dataset.chunkIds).flatten).contains c2.id) f c hNodupC hFk hf hc hfc hcSel
    have h2 := find?_chunk_eq db f c hNodupC hc hfc
    unfold specAttachEstuary
    rw [h1, h2]
    rfl
  rw [List.map_congr_left hmap]

/-- Witness for C10 at the concrete store with one dataset, one chunk and
two files owned by wAddr. -/
theorem getFileMetadata_owner_chain_witness :
    getFileMetadata wDbUnpub (some wAddr)
      = (200, some ((specOwnerFiles wDbUnpub (toLowerCase wAddr)).map
          (specAttachEstuary wDbUnpub))) :=
  getFileMetadata_owner_chain wDbUnpub wAddr (by decide) (by decide) (by decide) (by decide)

end Commons
